import Mathlib

/-!
A shallow embedding of the typed port-graph builder of `qpr.py`.

Python dictionaries (including the networkx node dictionary) are modelled as
association lists with first-key-wins lookup and update-in-place-or-append
assignment, which matches CPython dict semantics (insertion order, in-place
update).  A networkx `MultiDiGraph` is a node dictionary plus an edge list;
`MultiDiGraph.add_edge` silently creates missing endpoint nodes with no
attributes, which `Graph.addEdgeRaw` reproduces via `Graph.ensureNode`.
Exceptions are modelled by `Except Err`: the three distinct `ValueError`
messages raised by the source become the constructors `misusedInit`,
`misusedFin` and `typeMismatch`, and every `KeyError` becomes `keyError`
carrying the missing key, exactly at the lookup where Python would raise.
-/

/-- Python `d[k]` (success case): lookup in an insertion-ordered dict. -/
def dictFind {α : Type} (k : String) : List (String × α) → Option α
  | [] => none
  | (k₂, v) :: rest => if k = k₂ then some v else dictFind k rest

/-- Python `d[k] = v`: update the existing binding in place, else append. -/
def dictSet {α : Type} (k : String) (v : α) : List (String × α) → List (String × α)
  | [] => [(k, v)]
  | (k₂, w) :: rest => if k = k₂ then (k, v) :: rest else (k₂, w) :: dictSet k v rest

/-- `edge_types` from the source (fixed closed set of data types). -/
def edge_types : List String := ["Bit", "u32", "Qubit"]

/-- `Sig`: input-port-name → type and output-port-name → type maps. -/
structure Sig where
  in_types : List (String × String)
  out_types : List (String × String)
  deriving DecidableEq

/-- `fn_types`: the fixed module-level registry of operation signatures. -/
def fn_types : List (String × Sig) :=
  [("H_gate", ⟨[("q", "Qubit")], [("q", "Qubit")]⟩),
   ("CX_gate", ⟨[("ctl", "Qubit"), ("tgt", "Qubit")], [("ctl", "Qubit"), ("tgt", "Qubit")]⟩)]

/-- Attribute record of one networkx node.  `init`/`fin` are created with a
`label` attribute only; `add_node` sets both `fnid` and `label`; a node
auto-created by a raw edge insertion has neither. -/
structure NodeData where
  fnid : Option String
  label : Option String
  deriving DecidableEq

/-- One directed multigraph edge with its attributes, as inserted by the
source's `add_edge`/`add_init_edge`/`add_final_edge`. -/
structure Edge where
  src : String
  src_port : String
  tgt : String
  tgt_port : String
  datatype : String
  deriving DecidableEq

/-- The state of a networkx `MultiDiGraph` as used by the source. -/
structure Graph where
  nodes : List (String × NodeData)
  edges : List Edge
  deriving DecidableEq

/-- The exceptions the source can raise, one constructor per distinct
`ValueError` message plus `keyError` for every `KeyError`. -/
inductive Err where
  | misusedInit
  | misusedFin
  | typeMismatch (src_datatype tgt_datatype : String)
  | keyError (key : String)
  deriving DecidableEq

instance {ε α : Type} [DecidableEq ε] [DecidableEq α] : DecidableEq (Except ε α) := fun x y =>
  match x, y with
  | .ok a, .ok b =>
    if h : a = b then .isTrue (by rw [h]) else .isFalse (fun hh => by cases hh; exact h rfl)
  | .error a, .error b =>
    if h : a = b then .isTrue (by rw [h]) else .isFalse (fun hh => by cases hh; exact h rfl)
  | .ok _, .error _ => .isFalse (fun hh => by cases hh)
  | .error _, .ok _ => .isFalse (fun hh => by cases hh)

/-- The builder state: `QFn.__init__` stores a name, the circuit signature,
and a graph pre-seeded with the `init` and `fin` boundary nodes. -/
structure QFn where
  name : String
  sig : Sig
  G : Graph
  deriving DecidableEq

/-- `QFn("name", sig)`: fresh builder with only the two boundary nodes. -/
def QFn.new (name : String) (sig : Sig) : QFn :=
  ⟨name, sig, ⟨[("init", ⟨none, some ""⟩), ("fin", ⟨none, some ""⟩)], []⟩⟩

/-- `QFn.add_node`: networkx `add_node`, which inserts or silently updates
the attributes of an existing node.  It cannot fail. -/
def QFn.add_node (f : QFn) (name fnid label : String) : QFn :=
  { f with G := ⟨dictSet name ⟨some fnid, some label⟩ f.G.nodes, f.G.edges⟩ }

/-- `self.G.nodes[n]["fnid"]`: raises `KeyError n` when the node is absent,
then `KeyError "fnid"` when the node lacks the attribute. -/
def nodeFnid (g : Graph) (n : String) : Except Err String :=
  match dictFind n g.nodes with
  | none => .error (.keyError n)
  | some d =>
    match d.fnid with
    | none => .error (.keyError "fnid")
    | some i => .ok i

/-- `fn_types[i]`: raises `KeyError i` for an unknown operation identifier. -/
def fnSig (i : String) : Except Err Sig :=
  match dictFind i fn_types with
  | none => .error (.keyError i)
  | some s => .ok s

/-- A port-map subscript `m[p]`: raises `KeyError p` when absent. -/
def sigFind (m : List (String × String)) (p : String) : Except Err String :=
  match dictFind p m with
  | none => .error (.keyError p)
  | some t => .ok t

/-- `fn_types[i].out_types[p]`. -/
def sigOutType (i p : String) : Except Err String :=
  match fnSig i with
  | .error e => .error e
  | .ok s => sigFind s.out_types p

/-- `fn_types[i].in_types[p]`. -/
def sigInType (i p : String) : Except Err String :=
  match fnSig i with
  | .error e => .error e
  | .ok s => sigFind s.in_types p

/-- networkx creates a missing endpoint of a raw edge insertion as a node
with an empty attribute dictionary. -/
def Graph.ensureNode (g : Graph) (n : String) : Graph :=
  match dictFind n g.nodes with
  | some _ => g
  | none => ⟨g.nodes ++ [(n, ⟨none, none⟩)], g.edges⟩

/-- `self.G.add_edge(src, tgt, src_port=…, tgt_port=…, datatype=…)`. -/
def Graph.addEdgeRaw (g : Graph) (src tgt src_port tgt_port datatype : String) : Graph :=
  let g₂ := (g.ensureNode src).ensureNode tgt
  ⟨g₂.nodes, g₂.edges ++ [⟨src, src_port, tgt, tgt_port, datatype⟩]⟩

/-- `QFn.add_edge`, line for line: the two boundary guards, the two node
`fnid` attribute reads, the two registry/port lookups in source order, the
type-equality check, then the single raw edge insertion. -/
def QFn.add_edge (f : QFn) (src src_port tgt tgt_port : String) : Except Err QFn :=
  if src = "init" then .error .misusedInit
  else if tgt = "fin" then .error .misusedFin
  else
    match nodeFnid f.G src with
    | .error e => .error e
    | .ok src_fnid =>
      match nodeFnid f.G tgt with
      | .error e => .error e
      | .ok tgt_fnid =>
        match sigOutType src_fnid src_port with
        | .error e => .error e
        | .ok src_datatype =>
          match sigInType tgt_fnid tgt_port with
          | .error e => .error e
          | .ok tgt_datatype =>
            if src_datatype = tgt_datatype then
              .ok { f with G := f.G.addEdgeRaw src tgt src_port tgt_port src_datatype }
            else .error (.typeMismatch src_datatype tgt_datatype)

/-- `QFn.add_init_edge`: source type from the circuit signature's in-ports,
target resolved like an ordinary endpoint, edge inserted from `"init"`. -/
def QFn.add_init_edge (f : QFn) (src_port tgt tgt_port : String) : Except Err QFn :=
  match sigFind f.sig.in_types src_port with
  | .error e => .error e
  | .ok src_datatype =>
    match nodeFnid f.G tgt with
    | .error e => .error e
    | .ok tgt_fnid =>
      match sigInType tgt_fnid tgt_port with
      | .error e => .error e
      | .ok tgt_datatype =>
        if src_datatype = tgt_datatype then
          .ok { f with G := f.G.addEdgeRaw "init" tgt src_port tgt_port src_datatype }
        else .error (.typeMismatch src_datatype tgt_datatype)

/-- `QFn.add_final_edge`: target type from the circuit signature's out-ports
(read first, as in the source), source resolved like an ordinary endpoint,
edge inserted into `"fin"`. -/
def QFn.add_final_edge (f : QFn) (src src_port tgt_port : String) : Except Err QFn :=
  match sigFind f.sig.out_types tgt_port with
  | .error e => .error e
  | .ok tgt_datatype =>
    match nodeFnid f.G src with
    | .error e => .error e
    | .ok src_fnid =>
      match sigOutType src_fnid src_port with
      | .error e => .error e
      | .ok src_datatype =>
        if src_datatype = tgt_datatype then
          .ok { f with G := f.G.addEdgeRaw src "fin" src_port tgt_port src_datatype }
        else .error (.typeMismatch src_datatype tgt_datatype)

/-- The graphviz artifact `save_image` builds: a name, the node/label pairs,
and the edge endpoint pairs. -/
structure GvDigraph where
  name : String
  gvNodes : List (String × String)
  gvEdges : List (String × String)
  deriving DecidableEq

/-- The node/label pass of `save_image`: `self.G.nodes[n]["label"]` raises
`KeyError "label"` when a node lacks the attribute. -/
def nodeLabels : List (String × NodeData) → Except Err (List (String × String))
  | [] => .ok []
  | (n, d) :: rest =>
    match d.label with
    | none => .error (.keyError "label")
    | some l =>
      match nodeLabels rest with
      | .error e => .error e
      | .ok ls => .ok ((n, l) :: ls)

/-- `QFn.save_image`: a read-only rendering pass; it never touches the
builder state. -/
def QFn.save_image (f : QFn) : Except Err GvDigraph :=
  match nodeLabels f.G.nodes with
  | .error e => .error e
  | .ok ns => .ok ⟨f.name, ns, f.G.edges.map (fun e => (e.src, e.tgt))⟩

/-- One builder call, for reasoning about call sequences. -/
inductive Call where
  | addNode (name fnid label : String)
  | addEdge (src src_port tgt tgt_port : String)
  | addInitEdge (src_port tgt tgt_port : String)
  | addFinalEdge (src src_port tgt_port : String)
  | saveImage
  deriving DecidableEq

/-- Run one call, surfacing the exception when it raises. -/
def QFn.applyE (f : QFn) (c : Call) : Except Err QFn :=
  match c with
  | .addNode n i l => .ok (f.add_node n i l)
  | .addEdge a p b q => f.add_edge a p b q
  | .addInitEdge p b q => f.add_init_edge p b q
  | .addFinalEdge a p q => f.add_final_edge a p q
  | .saveImage =>
    match f.save_image with
    | .error e => .error e
    | .ok _ => .ok f

/-- Run one call, keeping the old state when it raises (a raised exception
leaves the Python object untouched: every raise precedes the mutation). -/
def QFn.apply (f : QFn) (c : Call) : QFn :=
  match f.applyE c with
  | .ok g => g
  | .error _ => f

/-- Run a call sequence, keeping only the successful calls' effects. -/
def QFn.run (f : QFn) : List Call → QFn
  | [] => f
  | c :: cs => (f.apply c).run cs

/-- Run a call sequence, stopping at the first exception. -/
def QFn.runE (f : QFn) : List Call → Except Err QFn
  | [] => .ok f
  | c :: cs =>
    match f.applyE c with
    | .error e => .error e
    | .ok g => g.runE cs

/-- Whether a call raises on the given state. -/
def QFn.callFails (f : QFn) (c : Call) : Bool :=
  match f.applyE c with
  | .ok _ => false
  | .error _ => true

/-- The three edge-insertion entry points. -/
def Call.isEdgeCall : Call → Bool
  | .addEdge _ _ _ _ => true
  | .addInitEdge _ _ _ => true
  | .addFinalEdge _ _ _ => true
  | _ => false

/-- The four insertion entry points (everything except export). -/
def Call.isInsertion : Call → Bool
  | .saveImage => false
  | _ => true

/-- Number of successful edge insertions along a run. -/
def QFn.succEdgeCount (f : QFn) : List Call → Nat
  | [] => 0
  | c :: cs =>
    (if c.isEdgeCall && !(f.callFails c) then 1 else 0) + (f.apply c).succEdgeCount cs

/-- The declared type of the out-facing port `(n, p)` of an edge source: for
the start node it is the circuit signature's in-port type; for any other
node it is the registry out-port type of the node's recorded operation. -/
def declaredSrcType (f : QFn) (n p : String) : Option String :=
  if n = "init" then dictFind p f.sig.in_types
  else
    match dictFind n f.G.nodes with
    | none => none
    | some d =>
      match d.fnid with
      | none => none
      | some i =>
        match dictFind i fn_types with
        | none => none
        | some s => dictFind p s.out_types

/-- The declared type of the in-facing port `(n, p)` of an edge target: for
the end node it is the circuit signature's out-port type; for any other
node it is the registry in-port type of the node's recorded operation. -/
def declaredTgtType (f : QFn) (n p : String) : Option String :=
  if n = "fin" then dictFind p f.sig.out_types
  else
    match dictFind n f.G.nodes with
    | none => none
    | some d =>
      match d.fnid with
      | none => none
      | some i =>
        match dictFind i fn_types with
        | none => none
        | some s => dictFind p s.in_types

/-- The central type-safety invariant: every edge's recorded datatype equals
the declared type at both of its endpoints. -/
def TypeSafe (f : QFn) : Prop :=
  ∀ e ∈ f.G.edges,
    declaredSrcType f e.src e.src_port = some e.datatype ∧
    declaredTgtType f e.tgt e.tgt_port = some e.datatype

instance (f : QFn) : Decidable (TypeSafe f) := by
  unfold TypeSafe; infer_instance

/-- The boundary nodes carry no `fnid` attribute (true of every state not
produced by an `add_node` call named `"init"` or `"fin"`). -/
def cleanBoundaryB (f : QFn) : Bool :=
  (match dictFind "init" f.G.nodes with
   | some d => d.fnid.isNone
   | none => true) &&
  (match dictFind "fin" f.G.nodes with
   | some d => d.fnid.isNone
   | none => true)

/-- Along the run, every `add_node` call uses a name not already present. -/
def QFn.freshB (f : QFn) : List Call → Bool
  | [] => true
  | c :: cs =>
    (match c with
     | .addNode n _ _ => (dictFind n f.G.nodes).isNone
     | _ => true) && (f.apply c).freshB cs

/-- The circuit signature of the `test()` driver (`"bell"`). -/
def bellSig : Sig :=
  ⟨[("q0", "Qubit"), ("q1", "Qubit")], [("q0", "Qubit"), ("q1", "Qubit")]⟩

/-- The seven builder calls of the `test()` driver, in order. -/
def bellCalls : List Call :=
  [.addNode "H" "H_gate" "H",
   .addNode "CX" "CX_gate" "CX",
   .addInitEdge "q0" "H" "q",
   .addEdge "H" "q" "CX" "ctl",
   .addInitEdge "q1" "CX" "tgt",
   .addFinalEdge "CX" "ctl" "q0",
   .addFinalEdge "CX" "tgt" "q1"]

/-- The bell builder right after its two `add_node` calls. -/
def bell2 : QFn :=
  ((QFn.new "bell" bellSig).add_node "H" "H_gate" "H").add_node "CX" "CX_gate" "CX"

/-- The state a run of calls reaches, or a dummy when it raised. -/
def okState : Except Err QFn → QFn
  | .ok g => g
  | .error _ => QFn.new "" ⟨[], []⟩

/-- Whether a run of calls completed without an exception. -/
def isOkB : Except Err QFn → Bool
  | .ok _ => true
  | .error _ => false

/-- Key `k` of the node dictionary, when bound, carries no `fnid`. -/
def CleanAt (nodes : List (String × NodeData)) (k : String) : Prop :=
  ∀ d, dictFind k nodes = some d → d.fnid = none

/-- The invariant carried by runs that never reuse a node name: both
boundary nodes are present without an `fnid`, and every edge is well
typed. -/
def Good (f : QFn) : Prop :=
  (∃ d, dictFind "init" f.G.nodes = some d ∧ d.fnid = none) ∧
  (∃ d, dictFind "fin" f.G.nodes = some d ∧ d.fnid = none) ∧
  TypeSafe f

/-- Both boundary nodes are present in the node dictionary. -/
def BoundaryPresent (f : QFn) : Prop :=
  (dictFind "init" f.G.nodes).isSome ∧ (dictFind "fin" f.G.nodes).isSome

/-- The bell builder right after its first `add_node` call. -/
def bellH : QFn := (QFn.new "bell" bellSig).add_node "H" "H_gate" "H"

/-- A fresh bell builder holding one operation node named `"X"`. -/
def bellX : QFn := (QFn.new "bell" bellSig).add_node "X" "H_gate" "a"

theorem dictFind_dictSet {α : Type} (k n : String) (v : α) (m : List (String × α)) :
    dictFind k (dictSet n v m) = if k = n then some v else dictFind k m := by
  induction m with
  | nil =>
    by_cases h : k = n <;> simp [dictFind, dictSet, h]
  | cons hd tl ih =>
    obtain ⟨k₂, w⟩ := hd
    by_cases h₂ : n = k₂
    · subst h₂
      by_cases h : k = n <;> simp [dictFind, dictSet, h]
    · by_cases h : k = k₂
      · subst h
        have hkn : ¬k = n := fun hh => h₂ hh.symm
        simp [dictFind, dictSet, h₂, hkn]
      · simp [dictFind, dictSet, h₂, h, ih]

theorem dictSet_length_found {α : Type} (n : String) (v d : α) (m : List (String × α))
    (h : dictFind n m = some d) : (dictSet n v m).length = m.length := by
  induction m with
  | nil => simp [dictFind] at h
  | cons hd tl ih =>
    obtain ⟨k₂, w⟩ := hd
    by_cases h₂ : n = k₂
    · simp [dictSet, h₂]
    · simp only [dictFind, if_neg h₂] at h
      simp [dictSet, h₂, ih h]

theorem dictSet_length_none {α : Type} (n : String) (v : α) (m : List (String × α))
    (h : dictFind n m = none) : (dictSet n v m).length = m.length + 1 := by
  induction m with
  | nil => simp [dictSet]
  | cons hd tl ih =>
    obtain ⟨k₂, w⟩ := hd
    by_cases h₂ : n = k₂
    · simp [dictFind, h₂] at h
    · simp only [dictFind, if_neg h₂] at h
      simp [dictSet, h₂, ih h]

theorem dictFind_append_some {α : Type} (k : String) (m m₂ : List (String × α)) (v : α)
    (h : dictFind k m = some v) : dictFind k (m ++ m₂) = some v := by
  induction m with
  | nil => simp [dictFind] at h
  | cons hd tl ih =>
    obtain ⟨k₂, w⟩ := hd
    by_cases hk : k = k₂
    · simp only [dictFind, if_pos hk] at h
      simp [dictFind, hk, h]
    · simp only [dictFind, if_neg hk] at h
      simp [dictFind, hk, ih h]

theorem dictFind_append_none {α : Type} (k : String) (m m₂ : List (String × α))
    (h : dictFind k m = none) : dictFind k (m ++ m₂) = dictFind k m₂ := by
  induction m with
  | nil => simp
  | cons hd tl ih =>
    obtain ⟨k₂, w⟩ := hd
    by_cases hk : k = k₂
    · simp [dictFind, hk] at h
    · simp only [dictFind, if_neg hk] at h
      simp [dictFind, hk, ih h]

theorem ensureNode_found (g : Graph) (n : String) (d : NodeData)
    (h : dictFind n g.nodes = some d) : g.ensureNode n = g := by
  unfold Graph.ensureNode
  rw [h]

theorem ensureNode_edges (g : Graph) (n : String) : (g.ensureNode n).edges = g.edges := by
  unfold Graph.ensureNode
  cases dictFind n g.nodes <;> rfl

theorem ensureNode_find_some (g : Graph) (n k : String) (d : NodeData)
    (h : dictFind k g.nodes = some d) : dictFind k (g.ensureNode n).nodes = some d := by
  unfold Graph.ensureNode
  cases hn : dictFind n g.nodes with
  | some d₂ => exact h
  | none => exact dictFind_append_some k g.nodes [(n, ⟨none, none⟩)] d h

theorem ensureNode_clean (g : Graph) (n k : String) (h : CleanAt g.nodes k) :
    CleanAt (g.ensureNode n).nodes k := by
  unfold Graph.ensureNode
  cases hn : dictFind n g.nodes with
  | some d₂ => exact h
  | none =>
    intro d hd
    simp only at hd
    cases hk : dictFind k g.nodes with
    | some d₃ =>
      rw [dictFind_append_some k g.nodes _ d₃ hk] at hd
      cases hd
      exact h _ hk
    | none =>
      rw [dictFind_append_none k g.nodes _ hk] at hd
      by_cases hkn : k = n
      · simp only [dictFind, if_pos hkn] at hd
        cases hd
        rfl
      · simp [dictFind, hkn] at hd

theorem ensureNode_length (g : Graph) (n : String) :
    g.nodes.length ≤ (g.ensureNode n).nodes.length := by
  unfold Graph.ensureNode
  cases dictFind n g.nodes <;> simp

theorem addEdgeRaw_edges (g : Graph) (a b p q t : String) :
    (g.addEdgeRaw a b p q t).edges = g.edges ++ [⟨a, p, b, q, t⟩] := by
  simp [Graph.addEdgeRaw, ensureNode_edges]

theorem addEdgeRaw_nodes_found (g : Graph) (a b p q t : String) (d₁ d₂ : NodeData)
    (h₁ : dictFind a g.nodes = some d₁) (h₂ : dictFind b g.nodes = some d₂) :
    (g.addEdgeRaw a b p q t).nodes = g.nodes := by
  have e1 : g.ensureNode a = g := ensureNode_found g a d₁ h₁
  have e2 : g.ensureNode b = g := ensureNode_found g b d₂ h₂
  simp [Graph.addEdgeRaw, e1, e2]

theorem addEdgeRaw_length (g : Graph) (a b p q t : String) :
    g.nodes.length ≤ (g.addEdgeRaw a b p q t).nodes.length := by
  simp only [Graph.addEdgeRaw]
  exact le_trans (ensureNode_length g a) (ensureNode_length (g.ensureNode a) b)

theorem nodeFnid_ok (g : Graph) (n i : String) (h : nodeFnid g n = .ok i) :
    ∃ d, dictFind n g.nodes = some d ∧ d.fnid = some i := by
  unfold nodeFnid at h
  cases h₁ : dictFind n g.nodes with
  | none => simp [h₁] at h
  | some d =>
    simp only [h₁] at h
    cases h₂ : d.fnid with
    | none => simp [h₂] at h
    | some i₂ =>
      simp only [h₂, Except.ok.injEq] at h
      exact ⟨d, rfl, h ▸ h₂⟩

theorem nodeFnid_error_shape (g : Graph) (n : String) (e : Err)
    (h : nodeFnid g n = .error e) : ∃ k, e = .keyError k := by
  unfold nodeFnid at h
  cases h₁ : dictFind n g.nodes with
  | none =>
    simp only [h₁, Except.error.injEq] at h
    exact ⟨n, h.symm⟩
  | some d =>
    simp only [h₁] at h
    cases h₂ : d.fnid with
    | none =>
      simp only [h₂, Except.error.injEq] at h
      exact ⟨"fnid", h.symm⟩
    | some i => simp [h₂] at h

theorem nodeFnid_clean (g : Graph) (k : String) (h : CleanAt g.nodes k) :
    nodeFnid g k = .error (.keyError k) ∨ nodeFnid g k = .error (.keyError "fnid") := by
  unfold nodeFnid
  cases h₁ : dictFind k g.nodes with
  | none => exact .inl rfl
  | some d =>
    have h₂ := h d h₁
    simp only [h₂]
    simp

theorem sigFind_ok (m : List (String × String)) (p t : String) (h : sigFind m p = .ok t) :
    dictFind p m = some t := by
  unfold sigFind at h
  cases h₁ : dictFind p m with
  | none => simp [h₁] at h
  | some t₂ =>
    simp only [h₁, Except.ok.injEq] at h
    rw [h]

theorem sigOutType_ok (i p t : String) (h : sigOutType i p = .ok t) :
    ∃ s, dictFind i fn_types = some s ∧ dictFind p s.out_types = some t := by
  unfold sigOutType fnSig at h
  cases h₁ : dictFind i fn_types with
  | none => simp [h₁] at h
  | some s =>
    simp only [h₁] at h
    exact ⟨s, rfl, sigFind_ok _ _ _ h⟩

theorem sigInType_ok (i p t : String) (h : sigInType i p = .ok t) :
    ∃ s, dictFind i fn_types = some s ∧ dictFind p s.in_types = some t := by
  unfold sigInType fnSig at h
  cases h₁ : dictFind i fn_types with
  | none => simp [h₁] at h
  | some s =>
    simp only [h₁] at h
    exact ⟨s, rfl, sigFind_ok _ _ _ h⟩

theorem apply_ok (f g : QFn) (c : Call) (h : f.applyE c = .ok g) : f.apply c = g := by
  unfold QFn.apply
  rw [h]

theorem apply_error (f : QFn) (c : Call) (e : Err) (h : f.applyE c = .error e) :
    f.apply c = f := by
  unfold QFn.apply
  rw [h]

theorem callFails_false (f : QFn) (c : Call) (h : f.callFails c = false) :
    ∃ g, f.applyE c = .ok g := by
  unfold QFn.callFails at h
  cases hE : f.applyE c with
  | ok g => exact ⟨g, rfl⟩
  | error e => simp [hE] at h

theorem callFails_true (f : QFn) (c : Call) (h : f.callFails c = true) :
    ∃ e, f.applyE c = .error e := by
  unfold QFn.callFails at h
  cases hE : f.applyE c with
  | ok g => simp [hE] at h
  | error e => exact ⟨e, rfl⟩

theorem add_edge_ok_cases (f g : QFn) (a p b q : String)
    (h : f.add_edge a p b q = .ok g) :
    a ≠ "init" ∧ b ≠ "fin" ∧
    ∃ i₁ i₂ t, nodeFnid f.G a = .ok i₁ ∧ nodeFnid f.G b = .ok i₂ ∧
      sigOutType i₁ p = .ok t ∧ sigInType i₂ q = .ok t ∧
      g = { f with G := f.G.addEdgeRaw a b p q t } := by
  unfold QFn.add_edge at h
  by_cases ha : a = "init"
  · simp [ha] at h
  rw [if_neg ha] at h
  by_cases hb : b = "fin"
  · simp [hb] at h
  rw [if_neg hb] at h
  refine ⟨ha, hb, ?_⟩
  cases h₁ : nodeFnid f.G a with
  | error e => simp [h₁] at h
  | ok i₁ =>
    simp only [h₁] at h
    cases h₂ : nodeFnid f.G b with
    | error e => simp [h₂] at h
    | ok i₂ =>
      simp only [h₂] at h
      cases h₃ : sigOutType i₁ p with
      | error e => simp [h₃] at h
      | ok t₁ =>
        simp only [h₃] at h
        cases h₄ : sigInType i₂ q with
        | error e => simp [h₄] at h
        | ok t₂ =>
          simp only [h₄] at h
          by_cases ht : t₁ = t₂
          · rw [if_pos ht] at h
            cases h
            exact ⟨i₁, i₂, t₁, rfl, rfl, h₃, by rw [ht]; exact h₄, rfl⟩
          · simp [ht] at h

theorem add_init_edge_ok_cases (f g : QFn) (p b q : String)
    (h : f.add_init_edge p b q = .ok g) :
    ∃ i t, sigFind f.sig.in_types p = .ok t ∧ nodeFnid f.G b = .ok i ∧
      sigInType i q = .ok t ∧
      g = { f with G := f.G.addEdgeRaw "init" b p q t } := by
  unfold QFn.add_init_edge at h
  cases h₁ : sigFind f.sig.in_types p with
  | error e => simp [h₁] at h
  | ok t₁ =>
    simp only [h₁] at h
    cases h₂ : nodeFnid f.G b with
    | error e => simp [h₂] at h
    | ok i =>
      simp only [h₂] at h
      cases h₃ : sigInType i q with
      | error e => simp [h₃] at h
      | ok t₂ =>
        simp only [h₃] at h
        by_cases ht : t₁ = t₂
        · rw [if_pos ht] at h
          cases h
          exact ⟨i, t₁, rfl, rfl, by rw [ht]; exact h₃, rfl⟩
        · simp [ht] at h

theorem add_final_edge_ok_cases (f g : QFn) (a p q : String)
    (h : f.add_final_edge a p q = .ok g) :
    ∃ i t, sigFind f.sig.out_types q = .ok t ∧ nodeFnid f.G a = .ok i ∧
      sigOutType i p = .ok t ∧
      g = { f with G := f.G.addEdgeRaw a "fin" p q t } := by
  unfold QFn.add_final_edge at h
  cases h₁ : sigFind f.sig.out_types q with
  | error e => simp [h₁] at h
  | ok t₂ =>
    simp only [h₁] at h
    cases h₂ : nodeFnid f.G a with
    | error e => simp [h₂] at h
    | ok i =>
      simp only [h₂] at h
      cases h₃ : sigOutType i p with
      | error e => simp [h₃] at h
      | ok t₁ =>
        simp only [h₃] at h
        by_cases ht : t₁ = t₂
        · rw [if_pos ht] at h
          cases h
          exact ⟨i, t₁, by rw [ht], rfl, h₃, rfl⟩
        · simp [ht] at h

theorem declaredSrcType_mono (f f₂ : QFn) (hsig : f₂.sig = f.sig)
    (hn : ∀ k d, dictFind k f.G.nodes = some d → dictFind k f₂.G.nodes = some d)
    (n p t : String) (h : declaredSrcType f n p = some t) :
    declaredSrcType f₂ n p = some t := by
  unfold declaredSrcType at h ⊢
  by_cases h0 : n = "init"
  · rw [if_pos h0] at h ⊢
    rw [hsig]
    exact h
  · rw [if_neg h0] at h ⊢
    cases h₁ : dictFind n f.G.nodes with
    | none => simp [h₁] at h
    | some d =>
      simp only [h₁] at h
      simp only [hn n d h₁]
      cases h₂ : d.fnid with
      | none => simp [h₂] at h
      | some i =>
        simp only [h₂] at h ⊢
        exact h

theorem declaredTgtType_mono (f f₂ : QFn) (hsig : f₂.sig = f.sig)
    (hn : ∀ k d, dictFind k f.G.nodes = some d → dictFind k f₂.G.nodes = some d)
    (n p t : String) (h : declaredTgtType f n p = some t) :
    declaredTgtType f₂ n p = some t := by
  unfold declaredTgtType at h ⊢
  by_cases h0 : n = "fin"
  · rw [if_pos h0] at h ⊢
    rw [hsig]
    exact h
  · rw [if_neg h0] at h ⊢
    cases h₁ : dictFind n f.G.nodes with
    | none => simp [h₁] at h
    | some d =>
      simp only [h₁] at h
      simp only [hn n d h₁]
      cases h₂ : d.fnid with
      | none => simp [h₂] at h
      | some i =>
        simp only [h₂] at h ⊢
        exact h

theorem apply_saveImage (f : QFn) : f.apply .saveImage = f := by
  unfold QFn.apply QFn.applyE
  cases hs : f.save_image <;> rfl

theorem good_new (name : String) (sig : Sig) : Good (QFn.new name sig) := by
  refine ⟨⟨⟨none, some ""⟩, ?_, rfl⟩, ⟨⟨none, some ""⟩, ?_, rfl⟩, ?_⟩
  · simp [QFn.new, dictFind]
  · simp [QFn.new, dictFind]
  · intro e he
    simp [QFn.new] at he

theorem good_step (f : QFn) (c : Call) (hg : Good f)
    (hfresh : ∀ n i l, c = .addNode n i l → dictFind n f.G.nodes = none) :
    Good (f.apply c) := by
  obtain ⟨⟨di, hdi, hdifn⟩, ⟨df, hdf, hdffn⟩, hts⟩ := hg
  cases c with
  | addNode n i l =>
    have hf := hfresh n i l rfl
    have happ : f.apply (.addNode n i l) = f.add_node n i l := rfl
    rw [happ]
    have hni : ¬("init" = n) := by
      intro hh
      rw [hh] at hdi
      rw [hdi] at hf
      cases hf
    have hnf : ¬("fin" = n) := by
      intro hh
      rw [hh] at hdf
      rw [hdf] at hf
      cases hf
    have hn : ∀ k d, dictFind k f.G.nodes = some d →
        dictFind k (f.add_node n i l).G.nodes = some d := by
      intro k d hd
      show dictFind k (dictSet n ⟨some i, some l⟩ f.G.nodes) = some d
      rw [dictFind_dictSet]
      by_cases hkn : k = n
      · rw [hkn] at hd
        rw [hd] at hf
        cases hf
      · rw [if_neg hkn]
        exact hd
    refine ⟨⟨di, hn "init" di hdi, hdifn⟩, ⟨df, hn "fin" df hdf, hdffn⟩, ?_⟩
    intro e he
    have hee : e ∈ f.G.edges := he
    obtain ⟨hsrc, htgt⟩ := hts e hee
    exact ⟨declaredSrcType_mono f (f.add_node n i l) rfl hn _ _ _ hsrc,
           declaredTgtType_mono f (f.add_node n i l) rfl hn _ _ _ htgt⟩
  | addEdge a p b q =>
    cases hE : f.applyE (.addEdge a p b q) with
    | error e =>
      rw [apply_error _ _ _ hE]
      exact ⟨⟨di, hdi, hdifn⟩, ⟨df, hdf, hdffn⟩, hts⟩
    | ok g =>
      rw [apply_ok _ _ _ hE]
      obtain ⟨ha, hb, i₁, i₂, t, h₁, h₂, h₃, h₄, hgdef⟩ := add_edge_ok_cases f g a p b q hE
      subst hgdef
      obtain ⟨d₁, hd₁, hfn₁⟩ := nodeFnid_ok _ _ _ h₁
      obtain ⟨d₂, hd₂, hfn₂⟩ := nodeFnid_ok _ _ _ h₂
      have hnodes : (f.G.addEdgeRaw a b p q t).nodes = f.G.nodes :=
        addEdgeRaw_nodes_found _ _ _ _ _ _ d₁ d₂ hd₁ hd₂
      have hn : ∀ k d, dictFind k f.G.nodes = some d →
          dictFind k (f.G.addEdgeRaw a b p q t).nodes = some d := by
        intro k d hd
        rw [hnodes]
        exact hd
      refine ⟨⟨di, hn "init" di hdi, hdifn⟩, ⟨df, hn "fin" df hdf, hdffn⟩, ?_⟩
      intro e he
      have hedges : ({ f with G := f.G.addEdgeRaw a b p q t }).G.edges =
          f.G.edges ++ [⟨a, p, b, q, t⟩] := addEdgeRaw_edges _ _ _ _ _ _
      rw [hedges] at he
      rcases List.mem_append.mp he with hold | hnew
      · obtain ⟨hsrc, htgt⟩ := hts e hold
        exact ⟨declaredSrcType_mono f { f with G := f.G.addEdgeRaw a b p q t } rfl hn _ _ _ hsrc,
               declaredTgtType_mono f { f with G := f.G.addEdgeRaw a b p q t } rfl hn _ _ _ htgt⟩
      · have he2 : e = ⟨a, p, b, q, t⟩ := List.mem_singleton.mp hnew
        subst he2
        obtain ⟨s₁, hs₁, hps₁⟩ := sigOutType_ok _ _ _ h₃
        obtain ⟨s₂, hs₂, hqs₂⟩ := sigInType_ok _ _ _ h₄
        constructor
        · show declaredSrcType _ a p = some t
          unfold declaredSrcType
          rw [if_neg ha]
          show (match dictFind a (f.G.addEdgeRaw a b p q t).nodes with
            | none => none
            | some d =>
              match d.fnid with
              | none => none
              | some i =>
                match dictFind i fn_types with
                | none => none
                | some s => dictFind p s.out_types) = some t
          rw [hnodes]
          simp only [hd₁, hfn₁, hs₁]
          exact hps₁
        · show declaredTgtType _ b q = some t
          unfold declaredTgtType
          rw [if_neg hb]
          show (match dictFind b (f.G.addEdgeRaw a b p q t).nodes with
            | none => none
            | some d =>
              match d.fnid with
              | none => none
              | some i =>
                match dictFind i fn_types with
                | none => none
                | some s => dictFind q s.in_types) = some t
          rw [hnodes]
          simp only [hd₂, hfn₂, hs₂]
          exact hqs₂
  | addInitEdge p b q =>
    cases hE : f.applyE (.addInitEdge p b q) with
    | error e =>
      rw [apply_error _ _ _ hE]
      exact ⟨⟨di, hdi, hdifn⟩, ⟨df, hdf, hdffn⟩, hts⟩
    | ok g =>
      rw [apply_ok _ _ _ hE]
      obtain ⟨i, t, hsg, h₂, h₄, hgdef⟩ := add_init_edge_ok_cases f g p b q hE
      subst hgdef
      obtain ⟨d₂, hd₂, hfn₂⟩ := nodeFnid_ok _ _ _ h₂
      have hnodes : (f.G.addEdgeRaw "init" b p q t).nodes = f.G.nodes :=
        addEdgeRaw_nodes_found _ _ _ _ _ _ di d₂ hdi hd₂
      have hn : ∀ k d, dictFind k f.G.nodes = some d →
          dictFind k (f.G.addEdgeRaw "init" b p q t).nodes = some d := by
        intro k d hd
        rw [hnodes]
        exact hd
      have hbfin : ¬(b = "fin") := by
        intro hh
        rw [hh] at hd₂
        rw [hd₂] at hdf
        cases hdf
        rw [hdffn] at hfn₂
        cases hfn₂
      refine ⟨⟨di, hn "init" di hdi, hdifn⟩, ⟨df, hn "fin" df hdf, hdffn⟩, ?_⟩
      intro e he
      have hedges : ({ f with G := f.G.addEdgeRaw "init" b p q t }).G.edges =
          f.G.edges ++ [⟨"init", p, b, q, t⟩] := addEdgeRaw_edges _ _ _ _ _ _
      rw [hedges] at he
      rcases List.mem_append.mp he with hold | hnew
      · obtain ⟨hsrc, htgt⟩ := hts e hold
        exact ⟨declaredSrcType_mono f { f with G := f.G.addEdgeRaw "init" b p q t } rfl hn _ _ _ hsrc,
               declaredTgtType_mono f { f with G := f.G.addEdgeRaw "init" b p q t } rfl hn _ _ _ htgt⟩
      · have he2 : e = ⟨"init", p, b, q, t⟩ := List.mem_singleton.mp hnew
        subst he2
        obtain ⟨s₂, hs₂, hqs₂⟩ := sigInType_ok _ _ _ h₄
        constructor
        · show declaredSrcType _ "init" p = some t
          unfold declaredSrcType
          rw [if_pos rfl]
          exact sigFind_ok _ _ _ hsg
        · show declaredTgtType _ b q = some t
          unfold declaredTgtType
          rw [if_neg hbfin]
          show (match dictFind b (f.G.addEdgeRaw "init" b p q t).nodes with
            | none => none
            | some d =>
              match d.fnid with
              | none => none
              | some i =>
                match dictFind i fn_types with
                | none => none
                | some s => dictFind q s.in_types) = some t
          rw [hnodes]
          simp only [hd₂, hfn₂, hs₂]
          exact hqs₂
  | addFinalEdge a p q =>
    cases hE : f.applyE (.addFinalEdge a p q) with
    | error e =>
      rw [apply_error _ _ _ hE]
      exact ⟨⟨di, hdi, hdifn⟩, ⟨df, hdf, hdffn⟩, hts⟩
    | ok g =>
      rw [apply_ok _ _ _ hE]
      obtain ⟨i, t, hsg, h₁, h₃, hgdef⟩ := add_final_edge_ok_cases f g a p q hE
      subst hgdef
      obtain ⟨d₁, hd₁, hfn₁⟩ := nodeFnid_ok _ _ _ h₁
      have hnodes : (f.G.addEdgeRaw a "fin" p q t).nodes = f.G.nodes :=
        addEdgeRaw_nodes_found _ _ _ _ _ _ d₁ df hd₁ hdf
      have hn : ∀ k d, dictFind k f.G.nodes = some d →
          dictFind k (f.G.addEdgeRaw a "fin" p q t).nodes = some d := by
        intro k d hd
        rw [hnodes]
        exact hd
      have hainit : ¬(a = "init") := by
        intro hh
        rw [hh] at hd₁
        rw [hd₁] at hdi
        cases hdi
        rw [hdifn] at hfn₁
        cases hfn₁
      refine ⟨⟨di, hn "init" di hdi, hdifn⟩, ⟨df, hn "fin" df hdf, hdffn⟩, ?_⟩
      intro e he
      have hedges : ({ f with G := f.G.addEdgeRaw a "fin" p q t }).G.edges =
          f.G.edges ++ [⟨a, p, "fin", q, t⟩] := addEdgeRaw_edges _ _ _ _ _ _
      rw [hedges] at he
      rcases List.mem_append.mp he with hold | hnew
      · obtain ⟨hsrc, htgt⟩ := hts e hold
        exact ⟨declaredSrcType_mono f { f with G := f.G.addEdgeRaw a "fin" p q t } rfl hn _ _ _ hsrc,
               declaredTgtType_mono f { f with G := f.G.addEdgeRaw a "fin" p q t } rfl hn _ _ _ htgt⟩
      · have he2 : e = ⟨a, p, "fin", q, t⟩ := List.mem_singleton.mp hnew
        subst he2
        obtain ⟨s₁, hs₁, hps₁⟩ := sigOutType_ok _ _ _ h₃
        constructor
        · show declaredSrcType _ a p = some t
          unfold declaredSrcType
          rw [if_neg hainit]
          show (match dictFind a (f.G.addEdgeRaw a "fin" p q t).nodes with
            | none => none
            | some d =>
              match d.fnid with
              | none => none
              | some i =>
                match dictFind i fn_types with
                | none => none
                | some s => dictFind p s.out_types) = some t
          rw [hnodes]
          simp only [hd₁, hfn₁, hs₁]
          exact hps₁
        · show declaredTgtType _ "fin" q = some t
          unfold declaredTgtType
          rw [if_pos rfl]
          exact sigFind_ok _ _ _ hsg
  | saveImage =>
    rw [apply_saveImage]
    exact ⟨⟨di, hdi, hdifn⟩, ⟨df, hdf, hdffn⟩, hts⟩

theorem run_good (cs : List Call) : ∀ f : QFn, Good f → f.freshB cs = true → Good (f.run cs) := by
  induction cs with
  | nil =>
    intro f hg _
    exact hg
  | cons c cs ih =>
    intro f hg hfr
    simp only [QFn.freshB, Bool.and_eq_true] at hfr
    obtain ⟨h₁, h₂⟩ := hfr
    have hstep : Good (f.apply c) := by
      apply good_step f c hg
      intro n i l hc
      subst hc
      simp only [Option.isNone_iff_eq_none] at h₁
      exact h₁
    show Good ((f.apply c).run cs)
    exact ih (f.apply c) hstep h₂

theorem add_node_edges (f : QFn) (n i l : String) :
    (f.add_node n i l).G.edges = f.G.edges := rfl

theorem apply_edges_length (f : QFn) (c : Call) :
    (f.apply c).G.edges.length =
      f.G.edges.length + (if c.isEdgeCall && !(f.callFails c) then 1 else 0) := by
  cases hE : f.applyE c with
  | error e =>
    rw [apply_error _ _ _ hE]
    have hfail : f.callFails c = true := by
      unfold QFn.callFails
      rw [hE]
    rw [hfail]
    simp
  | ok g =>
    rw [apply_ok _ _ _ hE]
    have hok : f.callFails c = false := by
      unfold QFn.callFails
      rw [hE]
    rw [hok]
    cases c with
    | addNode n i l =>
      have hg : g = f.add_node n i l := by
        have : Except.ok (f.add_node n i l) = Except.ok g := hE
        cases this
        rfl
      subst hg
      simp [add_node_edges, Call.isEdgeCall]
    | addEdge a p b q =>
      obtain ⟨_, _, i₁, i₂, t, _, _, _, _, hgdef⟩ := add_edge_ok_cases f g a p b q hE
      subst hgdef
      have := addEdgeRaw_edges f.G a b p q t
      simp [Call.isEdgeCall, this]
    | addInitEdge p b q =>
      obtain ⟨i, t, _, _, _, hgdef⟩ := add_init_edge_ok_cases f g p b q hE
      subst hgdef
      have := addEdgeRaw_edges f.G "init" b p q t
      simp [Call.isEdgeCall, this]
    | addFinalEdge a p q =>
      obtain ⟨i, t, _, _, _, hgdef⟩ := add_final_edge_ok_cases f g a p q hE
      subst hgdef
      have := addEdgeRaw_edges f.G a "fin" p q t
      simp [Call.isEdgeCall, this]
    | saveImage =>
      have hg : g = f := by
        unfold QFn.applyE at hE
        cases hs : f.save_image with
        | error e => rw [hs] at hE; cases hE
        | ok art => rw [hs] at hE; cases hE; rfl
      subst hg
      simp [Call.isEdgeCall]

theorem run_edges_length (cs : List Call) : ∀ f : QFn,
    (f.run cs).G.edges.length = f.G.edges.length + f.succEdgeCount cs := by
  induction cs with
  | nil =>
    intro f
    simp [QFn.run, QFn.succEdgeCount]
  | cons c cs ih =>
    intro f
    show ((f.apply c).run cs).G.edges.length = _
    rw [ih (f.apply c)]
    have hstep := apply_edges_length f c
    have hcount : f.succEdgeCount (c :: cs) =
        (if c.isEdgeCall && !(f.callFails c) then 1 else 0) + (f.apply c).succEdgeCount cs := rfl
    rw [hcount, hstep]
    omega

theorem apply_counts_mono (f : QFn) (c : Call) :
    f.G.edges.length ≤ (f.apply c).G.edges.length ∧
    f.G.nodes.length ≤ (f.apply c).G.nodes.length := by
  constructor
  · rw [apply_edges_length f c]
    omega
  · cases hE : f.applyE c with
    | error e =>
      rw [apply_error _ _ _ hE]
    | ok g =>
      rw [apply_ok _ _ _ hE]
      cases c with
      | addNode n i l =>
        have hg : g = f.add_node n i l := by
          have : Except.ok (f.add_node n i l) = Except.ok g := hE
          cases this
          rfl
        subst hg
        show f.G.nodes.length ≤ (dictSet n ⟨some i, some l⟩ f.G.nodes).length
        cases hd : dictFind n f.G.nodes with
        | some d => rw [dictSet_length_found n _ d _ hd]
        | none => rw [dictSet_length_none n _ _ hd]; omega
      | addEdge a p b q =>
        obtain ⟨_, _, i₁, i₂, t, _, _, _, _, hgdef⟩ := add_edge_ok_cases f g a p b q hE
        subst hgdef
        exact addEdgeRaw_length f.G a b p q t
      | addInitEdge p b q =>
        obtain ⟨i, t, _, _, _, hgdef⟩ := add_init_edge_ok_cases f g p b q hE
        subst hgdef
        exact addEdgeRaw_length f.G "init" b p q t
      | addFinalEdge a p q =>
        obtain ⟨i, t, _, _, _, hgdef⟩ := add_final_edge_ok_cases f g a p q hE
        subst hgdef
        exact addEdgeRaw_length f.G a "fin" p q t
      | saveImage =>
        have hg : g = f := by
          unfold QFn.applyE at hE
          cases hs : f.save_image with
          | error e => rw [hs] at hE; cases hE
          | ok art => rw [hs] at hE; cases hE; rfl
        subst hg
        exact le_refl _

theorem addEdgeRaw_find_some (g : Graph) (a b p q t k : String) (d : NodeData)
    (h : dictFind k g.nodes = some d) : dictFind k (g.addEdgeRaw a b p q t).nodes = some d := by
  simp only [Graph.addEdgeRaw]
  exact ensureNode_find_some _ b k d (ensureNode_find_some g a k d h)

theorem present_step (f : QFn) (c : Call) (hp : BoundaryPresent f) :
    BoundaryPresent (f.apply c) := by
  obtain ⟨hi, hfin⟩ := hp
  rw [Option.isSome_iff_exists] at hi hfin
  obtain ⟨di, hdi⟩ := hi
  obtain ⟨df, hdf⟩ := hfin
  cases hE : f.applyE c with
  | error e =>
    rw [apply_error _ _ _ hE]
    constructor <;> rw [Option.isSome_iff_exists]
    · exact ⟨di, hdi⟩
    · exact ⟨df, hdf⟩
  | ok g =>
    rw [apply_ok _ _ _ hE]
    cases c with
    | addNode n i l =>
      have hg : g = f.add_node n i l := by
        have : Except.ok (f.add_node n i l) = Except.ok g := hE
        cases this
        rfl
      subst hg
      constructor <;> rw [Option.isSome_iff_exists]
      · show ∃ d, dictFind "init" (dictSet n ⟨some i, some l⟩ f.G.nodes) = some d
        rw [dictFind_dictSet]
        by_cases hh : "init" = n
        · exact ⟨⟨some i, some l⟩, by rw [if_pos hh]⟩
        · exact ⟨di, by rw [if_neg hh]; exact hdi⟩
      · show ∃ d, dictFind "fin" (dictSet n ⟨some i, some l⟩ f.G.nodes) = some d
        rw [dictFind_dictSet]
        by_cases hh : "fin" = n
        · exact ⟨⟨some i, some l⟩, by rw [if_pos hh]⟩
        · exact ⟨df, by rw [if_neg hh]; exact hdf⟩
    | addEdge a p b q =>
      obtain ⟨_, _, i₁, i₂, t, h₁, h₂, _, _, hgdef⟩ := add_edge_ok_cases f g a p b q hE
      subst hgdef
      constructor <;> rw [Option.isSome_iff_exists]
      · exact ⟨di, addEdgeRaw_find_some f.G a b p q t "init" di hdi⟩
      · exact ⟨df, addEdgeRaw_find_some f.G a b p q t "fin" df hdf⟩
    | addInitEdge p b q =>
      obtain ⟨i, t, _, _, _, hgdef⟩ := add_init_edge_ok_cases f g p b q hE
      subst hgdef
      constructor <;> rw [Option.isSome_iff_exists]
      · exact ⟨di, addEdgeRaw_find_some f.G "init" b p q t "init" di hdi⟩
      · exact ⟨df, addEdgeRaw_find_some f.G "init" b p q t "fin" df hdf⟩
    | addFinalEdge a p q =>
      obtain ⟨i, t, _, _, _, hgdef⟩ := add_final_edge_ok_cases f g a p q hE
      subst hgdef
      constructor <;> rw [Option.isSome_iff_exists]
      · exact ⟨di, addEdgeRaw_find_some f.G a "fin" p q t "init" di hdi⟩
      · exact ⟨df, addEdgeRaw_find_some f.G a "fin" p q t "fin" df hdf⟩
    | saveImage =>
      have hg : g = f := by
        unfold QFn.applyE at hE
        cases hs : f.save_image with
        | error e => rw [hs] at hE; cases hE
        | ok art => rw [hs] at hE; cases hE; rfl
      subst hg
      constructor <;> rw [Option.isSome_iff_exists]
      · exact ⟨di, hdi⟩
      · exact ⟨df, hdf⟩

theorem run_present (cs : List Call) : ∀ f : QFn,
    BoundaryPresent f → BoundaryPresent (f.run cs) := by
  induction cs with
  | nil =>
    intro f hp
    exact hp
  | cons c cs ih =>
    intro f hp
    show BoundaryPresent ((f.apply c).run cs)
    exact ih (f.apply c) (present_step f c hp)

theorem new_present (name : String) (sig : Sig) : BoundaryPresent (QFn.new name sig) := by
  constructor <;> simp [QFn.new, dictFind]

theorem edge_apply_nodes (f : QFn) (c : Call) (hp : BoundaryPresent f)
    (hedge : c.isEdgeCall = true) (hok : f.callFails c = false) :
    (f.apply c).G.nodes = f.G.nodes := by
  obtain ⟨g, hE⟩ := callFails_false f c hok
  rw [apply_ok _ _ _ hE]
  obtain ⟨hi, hfin⟩ := hp
  rw [Option.isSome_iff_exists] at hi hfin
  obtain ⟨di, hdi⟩ := hi
  obtain ⟨df, hdf⟩ := hfin
  cases c with
  | addNode n i l => simp [Call.isEdgeCall] at hedge
  | addEdge a p b q =>
    obtain ⟨_, _, i₁, i₂, t, h₁, h₂, _, _, hgdef⟩ := add_edge_ok_cases f g a p b q hE
    subst hgdef
    obtain ⟨d₁, hd₁, _⟩ := nodeFnid_ok _ _ _ h₁
    obtain ⟨d₂, hd₂, _⟩ := nodeFnid_ok _ _ _ h₂
    exact addEdgeRaw_nodes_found _ _ _ _ _ _ d₁ d₂ hd₁ hd₂
  | addInitEdge p b q =>
    obtain ⟨i, t, _, h₂, _, hgdef⟩ := add_init_edge_ok_cases f g p b q hE
    subst hgdef
    obtain ⟨d₂, hd₂, _⟩ := nodeFnid_ok _ _ _ h₂
    exact addEdgeRaw_nodes_found _ _ _ _ _ _ di d₂ hdi hd₂
  | addFinalEdge a p q =>
    obtain ⟨i, t, _, h₁, _, hgdef⟩ := add_final_edge_ok_cases f g a p q hE
    subst hgdef
    obtain ⟨d₁, hd₁, _⟩ := nodeFnid_ok _ _ _ h₁
    exact addEdgeRaw_nodes_found _ _ _ _ _ _ d₁ df hd₁ hdf
  | saveImage => simp [Call.isEdgeCall] at hedge

theorem cleanBoundary_spec (f : QFn) (h : cleanBoundaryB f = true) :
    CleanAt f.G.nodes "init" ∧ CleanAt f.G.nodes "fin" := by
  unfold cleanBoundaryB at h
  rw [Bool.and_eq_true] at h
  obtain ⟨h₁, h₂⟩ := h
  constructor
  · intro d hd
    simp only [hd] at h₁
    exact Option.isNone_iff_eq_none.mp h₁
  · intro d hd
    simp only [hd] at h₂
    exact Option.isNone_iff_eq_none.mp h₂

theorem add_edge_into_init (f : QFn) (a p q : String) (hcl : CleanAt f.G.nodes "init")
    (ha : ¬(a = "init")) : ∃ k, f.add_edge a p "init" q = .error (.keyError k) := by
  unfold QFn.add_edge
  rw [if_neg ha]
  rw [if_neg (by decide : ¬("init" = "fin"))]
  cases h₁ : nodeFnid f.G a with
  | error e =>
    obtain ⟨k, hk⟩ := nodeFnid_error_shape _ _ _ h₁
    exact ⟨k, by simp only [h₁, hk]⟩
  | ok i₁ =>
    rcases nodeFnid_clean f.G "init" hcl with h₂ | h₂
    · exact ⟨"init", by simp only [h₁, h₂]⟩
    · exact ⟨"fnid", by simp only [h₁, h₂]⟩

theorem add_edge_from_fin (f : QFn) (a p q : String) (hcl : CleanAt f.G.nodes "fin")
    (ha : ¬(a = "fin")) : ∃ k, f.add_edge "fin" p a q = .error (.keyError k) := by
  unfold QFn.add_edge
  rw [if_neg (by decide : ¬("fin" = "init"))]
  rw [if_neg ha]
  rcases nodeFnid_clean f.G "fin" hcl with h₁ | h₁
  · exact ⟨"fin", by simp only [h₁]⟩
  · exact ⟨"fnid", by simp only [h₁]⟩

/-- Claim C1, counterexample: the type-safety invariant is not preserved in
every reachable state.  Re-adding node `"A"` with a different operation
identifier (`add_node` silently overwrites) leaves the earlier edge
`A.q → B.ctl` with a recorded type that no longer matches any declared
output port of `A`'s new operation. -/
theorem C1_counterexample :
    ¬ TypeSafe ((QFn.new "g" bellSig).run
      [.addNode "A" "H_gate" "", .addNode "B" "CX_gate" "",
       .addEdge "A" "q" "B" "ctl", .addNode "A" "CX_gate" ""]) := by decide

/-- Claim C1, amended: in every reachable builder state produced by a call
sequence in which every `add_node` call uses a name not already bound in
the node dictionary, every edge's recorded DataType equals both the
declared output-port type at its source and the declared input-port type
at its target. -/
theorem C1_amended_type_safety (name : String) (sig : Sig) (cs : List Call)
    (h : (QFn.new name sig).freshB cs = true) :
    TypeSafe ((QFn.new name sig).run cs) :=
  (run_good cs (QFn.new name sig) (good_new name sig) h).2.2

/-- Witness for the amended claim C1 on the `test()` call sequence. -/
theorem C1_amended_type_safety_witness :
    (QFn.new "bell" bellSig).freshB bellCalls = true ∧
    TypeSafe ((QFn.new "bell" bellSig).run bellCalls) :=
  ⟨by decide, C1_amended_type_safety "bell" bellSig bellCalls (by decide)⟩

/-- Claim C2: for existing non-boundary operation nodes, `add_edge` resolves
the source type from the source operation's out-port map and the target
type from the target operation's in-port map, fails with a `KeyError` on
the absent port name, fails with the type-mismatch error (carrying both
types) exactly when the two resolved types differ, and on success appends
one edge carrying the agreed type as its sole mutating side effect. -/
theorem C2_add_edge_contract (f : QFn) (src sp tgt tp i₁ i₂ : String) (s₁ s₂ : Sig)
    (h1 : nodeFnid f.G src = .ok i₁) (h2 : nodeFnid f.G tgt = .ok i₂)
    (h3 : dictFind i₁ fn_types = some s₁) (h4 : dictFind i₂ fn_types = some s₂)
    (hs1 : ¬(src = "init")) (hs2 : ¬(src = "fin"))
    (ht1 : ¬(tgt = "init")) (ht2 : ¬(tgt = "fin")) :
    (dictFind sp s₁.out_types = none → f.add_edge src sp tgt tp = .error (.keyError sp)) ∧
    (∀ a, dictFind sp s₁.out_types = some a → dictFind tp s₂.in_types = none →
      f.add_edge src sp tgt tp = .error (.keyError tp)) ∧
    (∀ a b, dictFind sp s₁.out_types = some a → dictFind tp s₂.in_types = some b →
      ¬(a = b) → f.add_edge src sp tgt tp = .error (.typeMismatch a b)) ∧
    (∀ a, dictFind sp s₁.out_types = some a → dictFind tp s₂.in_types = some a →
      f.add_edge src sp tgt tp =
        .ok ⟨f.name, f.sig, ⟨f.G.nodes, f.G.edges ++ [⟨src, sp, tgt, tp, a⟩]⟩⟩) := by
  refine ⟨?_, ?_, ?_, ?_⟩
  · intro hA
    unfold QFn.add_edge
    rw [if_neg hs1, if_neg ht2]
    simp only [h1, h2, sigOutType, fnSig, h3, sigFind, hA]
  · intro a hA hB
    unfold QFn.add_edge
    rw [if_neg hs1, if_neg ht2]
    simp only [h1, h2, sigOutType, sigInType, fnSig, h3, h4, sigFind, hA, hB]
  · intro a b hA hB hab
    unfold QFn.add_edge
    rw [if_neg hs1, if_neg ht2]
    simp only [h1, h2, sigOutType, sigInType, fnSig, h3, h4, sigFind, hA, hB]
    rw [if_neg hab]
  · intro a hA hB
    unfold QFn.add_edge
    rw [if_neg hs1, if_neg ht2]
    simp only [h1, h2, sigOutType, sigInType, fnSig, h3, h4, sigFind, hA, hB, if_true]
    obtain ⟨d₁, hd₁, _⟩ := nodeFnid_ok _ _ _ h1
    obtain ⟨d₂, hd₂, _⟩ := nodeFnid_ok _ _ _ h2
    have hGeq : f.G.addEdgeRaw src tgt sp tp a =
        ⟨f.G.nodes, f.G.edges ++ [⟨src, sp, tgt, tp, a⟩]⟩ := by
      have hn := addEdgeRaw_nodes_found f.G src tgt sp tp a d₁ d₂ hd₁ hd₂
      have he := addEdgeRaw_edges f.G src tgt sp tp a
      calc f.G.addEdgeRaw src tgt sp tp a
          = ⟨(f.G.addEdgeRaw src tgt sp tp a).nodes,
             (f.G.addEdgeRaw src tgt sp tp a).edges⟩ := rfl
        _ = ⟨f.G.nodes, f.G.edges ++ [⟨src, sp, tgt, tp, a⟩]⟩ := by rw [hn, he]
    rw [hGeq]

/-- Witness for claim C2: the ordinary edge `H.q → CX.ctl` of the `test()`
driver succeeds and appends exactly one `Qubit` edge. -/
theorem C2_add_edge_contract_witness :
    bell2.add_edge "H" "q" "CX" "ctl" =
      .ok ⟨bell2.name, bell2.sig,
           ⟨bell2.G.nodes, bell2.G.edges ++ [⟨"H", "q", "CX", "ctl", "Qubit"⟩]⟩⟩ :=
  (C2_add_edge_contract bell2 "H" "q" "CX" "ctl" "H_gate" "CX_gate"
      ⟨[("q", "Qubit")], [("q", "Qubit")]⟩
      ⟨[("ctl", "Qubit"), ("tgt", "Qubit")], [("ctl", "Qubit"), ("tgt", "Qubit")]⟩
      (by decide) (by decide) (by decide) (by decide)
      (by decide) (by decide) (by decide) (by decide)).2.2.2
    "Qubit" (by decide) (by decide)

/-- Claim C3, counterexample: `add_edge` with the start node as target, or
the end node as source, does not fail with the misused-boundary error;
both calls fail with `KeyError "fnid"` (the boundary node has no recorded
operation identifier). -/
theorem C3_counterexample :
    bellH.add_edge "H" "q" "init" "q" = .error (.keyError "fnid") ∧
    bellH.add_edge "fin" "q" "H" "ctl" = .error (.keyError "fnid") ∧
    ¬(bellH.add_edge "H" "q" "init" "q" = .error .misusedInit ∨
      bellH.add_edge "H" "q" "init" "q" = .error .misusedFin) := by decide

/-- Claim C3, amended: when neither boundary node carries an operation
identifier (true unless `add_node` overwrote them) and the other endpoint
is not itself a boundary name, `add_edge` with the start node as target or
the end node as source always fails — but with a `KeyError`, never with
the misused-boundary error. -/
theorem C3_amended_boundary_reverse (f : QFn) (a p q : String)
    (h : cleanBoundaryB f = true) (ha1 : ¬(a = "init")) (ha2 : ¬(a = "fin")) :
    (∃ k, f.add_edge a p "init" q = .error (.keyError k)) ∧
    (∃ k, f.add_edge "fin" p a q = .error (.keyError k)) := by
  obtain ⟨hci, hcf⟩ := cleanBoundary_spec f h
  exact ⟨add_edge_into_init f a p q hci ha1, add_edge_from_fin f a p q hcf ha2⟩

/-- Witness for the amended claim C3. -/
theorem C3_amended_boundary_reverse_witness :
    cleanBoundaryB bellH = true ∧
    ((∃ k, bellH.add_edge "H" "q" "init" "q" = .error (.keyError k)) ∧
     (∃ k, bellH.add_edge "fin" "q" "H" "q" = .error (.keyError k))) :=
  ⟨by decide, C3_amended_boundary_reverse bellH "H" "q" "q" (by decide) (by decide) (by decide)⟩

/-- Claim C4, counterexample: adding a second node with the name `"X"` does
not fail; it silently replaces the stored operation identifier and label
(`H_gate`/`"a"` become `CX_gate`/`"b"`), with the node count unchanged. -/
theorem C4_counterexample :
    dictFind "X" bellX.G.nodes = some ⟨some "H_gate", some "a"⟩ ∧
    dictFind "X" (bellX.add_node "X" "CX_gate" "b").G.nodes =
      some ⟨some "CX_gate", some "b"⟩ ∧
    (bellX.add_node "X" "CX_gate" "b").G.nodes.length = 3 := by decide

/-- Claim C4, amended: `add_node` with a name that collides with an existing
node does not fail — it silently overwrites the stored operation identifier
and label, leaving the node count and the edge list unchanged. -/
theorem C4_amended_duplicate_overwrite (f : QFn) (n i l : String) (d : NodeData)
    (h : dictFind n f.G.nodes = some d) :
    dictFind n (f.add_node n i l).G.nodes = some ⟨some i, some l⟩ ∧
    (f.add_node n i l).G.nodes.length = f.G.nodes.length ∧
    (f.add_node n i l).G.edges = f.G.edges := by
  refine ⟨?_, ?_, rfl⟩
  · show dictFind n (dictSet n ⟨some i, some l⟩ f.G.nodes) = _
    rw [dictFind_dictSet, if_pos rfl]
  · show (dictSet n ⟨some i, some l⟩ f.G.nodes).length = _
    exact dictSet_length_found n _ d _ h

/-- Witness for the amended claim C4. -/
theorem C4_amended_duplicate_overwrite_witness :
    dictFind "X" bellX.G.nodes = some ⟨some "H_gate", some "a"⟩ ∧
    (dictFind "X" (bellX.add_node "X" "CX_gate" "b").G.nodes =
       some ⟨some "CX_gate", some "b"⟩ ∧
     (bellX.add_node "X" "CX_gate" "b").G.nodes.length = bellX.G.nodes.length ∧
     (bellX.add_node "X" "CX_gate" "b").G.edges = bellX.G.edges) :=
  ⟨by decide,
   C4_amended_duplicate_overwrite bellX "X" "CX_gate" "b" ⟨some "H_gate", some "a"⟩ (by decide)⟩

/-- Claim C5, counterexample: `add_node` with an operation identifier absent
from the registry does not fail at node-addition time; the node is added
(node count grows from 2 to 3) carrying the unknown identifier. -/
theorem C5_counterexample :
    dictFind "bogus" fn_types = none ∧
    dictFind "X" ((QFn.new "bell" bellSig).add_node "X" "bogus" "").G.nodes =
      some ⟨some "bogus", some ""⟩ ∧
    ((QFn.new "bell" bellSig).add_node "X" "bogus" "").G.nodes.length = 3 := by decide

/-- Claim C5, amended: `add_node` performs no registry validation — with an
operation identifier absent from the registry and a fresh name, the call
does not fail and the node is added, carrying the unknown identifier. -/
theorem C5_amended_no_registry_check (f : QFn) (n i l : String)
    (h1 : dictFind i fn_types = none) (h2 : dictFind n f.G.nodes = none) :
    dictFind n (f.add_node n i l).G.nodes = some ⟨some i, some l⟩ ∧
    (f.add_node n i l).G.nodes.length = f.G.nodes.length + 1 := by
  constructor
  · show dictFind n (dictSet n ⟨some i, some l⟩ f.G.nodes) = _
    rw [dictFind_dictSet, if_pos rfl]
  · exact dictSet_length_none n _ _ h2

/-- Witness for the amended claim C5. -/
theorem C5_amended_no_registry_check_witness :
    dictFind "bogus" fn_types = none ∧
    dictFind "Y" (QFn.new "bell" bellSig).G.nodes = none ∧
    (dictFind "Y" ((QFn.new "bell" bellSig).add_node "Y" "bogus" "").G.nodes =
       some ⟨some "bogus", some ""⟩ ∧
     ((QFn.new "bell" bellSig).add_node "Y" "bogus" "").G.nodes.length =
       (QFn.new "bell" bellSig).G.nodes.length + 1) :=
  ⟨by decide, by decide,
   C5_amended_no_registry_check (QFn.new "bell" bellSig) "Y" "bogus" "" (by decide) (by decide)⟩

/-- Claim C6: every `add_edge` call whose source is the start node or whose
target is the end node fails with one of the two misused-boundary errors
(and hence performs no graph mutation). -/
theorem C6_boundary_forward (f : QFn) (a p b q : String) (h : a = "init" ∨ b = "fin") :
    ∃ e, f.add_edge a p b q = .error e ∧ (e = .misusedInit ∨ e = .misusedFin) := by
  by_cases ha : a = "init"
  · refine ⟨.misusedInit, ?_, .inl rfl⟩
    unfold QFn.add_edge
    rw [if_pos ha]
  · have hb : b = "fin" := h.resolve_left ha
    refine ⟨.misusedFin, ?_, .inr rfl⟩
    unfold QFn.add_edge
    rw [if_neg ha, if_pos hb]

/-- Witness for claim C6. -/
theorem C6_boundary_forward_witness :
    ∃ e, bell2.add_edge "init" "q0" "H" "q" = .error e ∧
      (e = Err.misusedInit ∨ e = Err.misusedFin) :=
  C6_boundary_forward bell2 "init" "q0" "H" "q" (Or.inl rfl)

/-- Claim C7: every insertion call that raises leaves the builder state —
in particular its node count and edge count — exactly as it was, so the
graph remains usable for further insertions. -/
theorem C7_atomic_failure (f : QFn) (c : Call) (hins : c.isInsertion = true)
    (hfail : f.callFails c = true) :
    (f.apply c).G.nodes.length = f.G.nodes.length ∧
    (f.apply c).G.edges.length = f.G.edges.length ∧
    f.apply c = f := by
  obtain ⟨e, hE⟩ := callFails_true f c hfail
  rw [apply_error f c e hE]
  exact ⟨rfl, rfl, rfl⟩

/-- Witness for claim C7: an edge to the nonexistent node `"ZZ"` fails and
changes nothing. -/
theorem C7_atomic_failure_witness :
    Call.isInsertion (.addEdge "H" "q" "ZZ" "ctl") = true ∧
    bell2.callFails (.addEdge "H" "q" "ZZ" "ctl") = true ∧
    ((bell2.apply (.addEdge "H" "q" "ZZ" "ctl")).G.nodes.length = bell2.G.nodes.length ∧
     (bell2.apply (.addEdge "H" "q" "ZZ" "ctl")).G.edges.length = bell2.G.edges.length ∧
     bell2.apply (.addEdge "H" "q" "ZZ" "ctl") = bell2) :=
  ⟨by decide, by decide, C7_atomic_failure bell2 (.addEdge "H" "q" "ZZ" "ctl") (by decide) (by decide)⟩

/-- Claim C8: the seven-call `test()` sequence succeeds end to end; the
final graph has exactly the 4 nodes `init`, `fin`, `H`, `CX` and exactly 5
edges, each carrying DataType `"Qubit"`. -/
theorem C8_bell_scenario :
    isOkB ((QFn.new "bell" bellSig).runE bellCalls) = true ∧
    (okState ((QFn.new "bell" bellSig).runE bellCalls)).G.nodes.length = 4 ∧
    (okState ((QFn.new "bell" bellSig).runE bellCalls)).G.nodes.map (fun x => x.1) =
      ["init", "fin", "H", "CX"] ∧
    (okState ((QFn.new "bell" bellSig).runE bellCalls)).G.edges.length = 5 ∧
    ∀ e ∈ (okState ((QFn.new "bell" bellSig).runE bellCalls)).G.edges,
      e.datatype = "Qubit" := by decide

/-- Claim C9: the edge count after a run equals its starting value plus the
number of successful edge insertions in the run (each successful insertion
appends exactly one edge, duplicates included), and no single builder call
— including failed calls and export — ever decreases the edge count or the
node count. -/
theorem C9_append_only :
    (∀ (f : QFn) (cs : List Call),
      (f.run cs).G.edges.length = f.G.edges.length + f.succEdgeCount cs) ∧
    (∀ (f : QFn) (c : Call),
      f.G.edges.length ≤ (f.apply c).G.edges.length ∧
      f.G.nodes.length ≤ (f.apply c).G.nodes.length) :=
  ⟨fun f cs => run_edges_length cs f, apply_counts_mono⟩

/-- Claim C10: in every reachable builder state, a successful edge-insertion
call leaves the node dictionary exactly unchanged — the operation-identifier
lookups fail before the raw multigraph insertion could auto-create a
missing endpoint. -/
theorem C10_node_frame (name : String) (sig : Sig) (cs : List Call) (c : Call)
    (hedge : c.isEdgeCall = true)
    (hok : ((QFn.new name sig).run cs).callFails c = false) :
    (((QFn.new name sig).run cs).apply c).G.nodes = ((QFn.new name sig).run cs).G.nodes :=
  edge_apply_nodes _ c (run_present cs _ (new_present name sig)) hedge hok

/-- Witness for claim C10. -/
theorem C10_node_frame_witness :
    Call.isEdgeCall (.addInitEdge "q0" "H" "q") = true ∧
    ((QFn.new "bell" bellSig).run [.addNode "H" "H_gate" "H"]).callFails
      (.addInitEdge "q0" "H" "q") = false ∧
    (((QFn.new "bell" bellSig).run [.addNode "H" "H_gate" "H"]).apply
        (.addInitEdge "q0" "H" "q")).G.nodes =
      ((QFn.new "bell" bellSig).run [.addNode "H" "H_gate" "H"]).G.nodes :=
  ⟨by decide, by decide,
   C10_node_frame "bell" bellSig [.addNode "H" "H_gate" "H"] (.addInitEdge "q0" "H" "q")
     (by decide) (by decide)⟩
